import Mathlib

/-!
Shallow embedding of `liboldbailey/process.py`: the Old Bailey trial-record
extractor.  Python dictionaries are modelled as insertion-ordered association
lists, BeautifulSoup tags as plain structures carrying the attribute values the
code reads, raised exceptions as `Except.error`, and the soft `return None`
paths as `Except.ok none`.
-/

namespace OldBailey

/-! ### Python string primitives -/

/-- Python `\s` for the ASCII range (as used by `str.strip` and `re.sub(r'\s+', " ")`). -/
def isPySpace (c : Char) : Bool :=
  c = ' ' || c = '\t' || c = '\n' || c = '\r' || c = '\x0b' || c = '\x0c'

/-- `str.strip()` on a character list. -/
def pyStripList (l : List Char) : List Char :=
  ((l.dropWhile isPySpace).reverse.dropWhile isPySpace).reverse

/-- `str.strip()`. -/
def pyStrip (s : String) : String := ⟨pyStripList s.data⟩

/-- Collapse every run of whitespace to a single space; the flag records
whether the previous character was whitespace (mirrors `re.sub(r'\s+', " ", ·)`). -/
def collapseAux : Bool → List Char → List Char
  | _, [] => []
  | prevWS, c :: rest =>
    if isPySpace c then
      if prevWS then collapseAux true rest
      else ' ' :: collapseAux true rest
    else c :: collapseAux false rest

/-- `normalize_text`: `re.sub(r'\s+', " ", text.strip())`. -/
def normalize_text (s : String) : String :=
  ⟨collapseAux false (pyStripList s.data)⟩

/-- `str.title()` for ASCII letters: uppercase a letter not preceded by a
letter, lowercase one that is; the flag records whether the previous
character was a letter. -/
def titleAux : Bool → List Char → List Char
  | _, [] => []
  | prevAlpha, c :: rest =>
    if c.isAlpha then
      (if prevAlpha then c.toLower else c.toUpper) :: titleAux true rest
    else c :: titleAux false rest

/-- `str.title()`. -/
def pyTitle (s : String) : String := ⟨titleAux false s.data⟩

/-- `normalize_text_titlecase`: `normalize_text(text).title()`. -/
def normalize_text_titlecase (s : String) : String := pyTitle (normalize_text s)

/-- `str.lower()` (ASCII). -/
def pyLower (s : String) : String := ⟨s.data.map Char.toLower⟩

/-- Value of a nonempty all-digit character list. -/
def digitsVal : List Char → Option Nat
  | [] => none
  | l => if l.all Char.isDigit then some (l.foldl (fun n c => n * 10 + (c.toNat - 48)) 0) else none

/-- Python `int(s)`: optional surrounding whitespace, optional sign, at least
one digit; `none` models a raised `ValueError`. -/
def pyInt (s : String) : Option Int :=
  match pyStripList s.data with
  | '-' :: ds => (digitsVal ds).map (fun n => -(n : Int))
  | '+' :: ds => (digitsVal ds).map (fun n => (n : Int))
  | ds => (digitsVal ds).map (fun n => (n : Int))

/-- `re.search('[a-zA-Z]', s)` succeeds (Lean's `Char.isAlpha` is exactly the
ASCII letter test). -/
def hasAlpha (s : String) : Bool := s.data.any Char.isAlpha

/-- `str(x)` on an optional string cell (`str(None) = "None"`). -/
def pyStr : Option String → String
  | none => "None"
  | some s => s

/-! ### Insertion-ordered dictionaries (Python `dict`) -/

/-- A Python `dict` as an insertion-ordered association list without
duplicate keys. -/
abbrev AList (κ α : Type) := List (κ × α)

/-- `d[k]` / `k in d`. -/
def alookup {κ α : Type} [DecidableEq κ] : AList κ α → κ → Option α
  | [], _ => none
  | (k', v) :: rest, k => if k' = k then some v else alookup rest k

/-- `d[k] = v`: replace in place (keeping the key's insertion position) or
append a new binding. -/
def alistInsert {κ α : Type} [DecidableEq κ] : AList κ α → κ → α → AList κ α
  | [], k, v => [(k, v)]
  | (k', v') :: rest, k, v =>
    if k' = k then (k', v) :: rest else (k', v') :: alistInsert rest k v

/-! ### Data model (`@dataclass` declarations) -/

structure Occupation where
  name : String
  working_class : Option Bool
  skilled : Option Bool
deriving DecidableEq, Repr

structure Person where
  name : String
  id : String
  gender : Option String
  age : Option Int
  occupation : Option (String ⊕ Occupation)
deriving DecidableEq, Repr

structure Offence where
  id : String
  category : String
  subcategory : Option String
  description : String
  victims : List Person
deriving DecidableEq, Repr

structure Verdict where
  id : String
  category : String
  subcategory : Option String
deriving DecidableEq, Repr

structure Charge where
  defendant : List Person
  offence : List Offence
  verdict : Verdict
deriving DecidableEq, Repr

structure Punishment where
  id : String
  category : String
  subcategory : Option String
  description : String
  defendants : List Person
deriving DecidableEq, Repr

structure TrialData where
  date : Nat
  id : String
  corrected : Bool
  defendants : AList String Person
  victims : AList String Person
  offences : AList String Offence
  verdicts : AList String Verdict
  punishments : AList String Punishment
  charges : List Charge
deriving DecidableEq, Repr

/-! ### Raw markup, as read by `parse_trial_tag`

Each structure carries exactly the attribute values the Python code pulls out
of the BeautifulSoup tag. -/

/-- A `<persname>` tag: its `id`, its text, and the values of the optional
`gender` / `age` / `occupation` `interp` sub-tags. -/
structure RawPersonTag where
  id : String
  text : String
  gender : Option String
  age : Option String
  occupation : Option String
deriving DecidableEq, Repr

/-- An `<rs>` tag of kind `offenceDescription` or `punishmentDescription`:
`id`, required category, optional subcategory, and text. -/
structure RawRsTag where
  id : String
  category : String
  subcategory : Option String
  text : String
deriving DecidableEq, Repr

/-- An `<rs>` tag of kind `verdictDescription` (no description text is kept). -/
structure RawVerdictTag where
  id : String
  category : String
  subcategory : Option String
deriving DecidableEq, Repr

/-- One `<div1 type="trialAccount">` record: date (already parsed), trial id,
the person/offence/verdict/punishment tags in document order, and the three
join lists (each join already split into its whitespace-separated ID list). -/
structure TrialTag where
  id : String
  date : Nat
  defendant_tags : List RawPersonTag
  victim_tags : List RawPersonTag
  offence_tags : List RawRsTag
  victim_joins : List (List String)
  verdict_tags : List RawVerdictTag
  punishment_tags : List RawRsTag
  punish_joins : List (List String)
  charge_joins : List (List String)
deriving DecidableEq, Repr

/-! ### Person extraction (lines 112–153) -/

/-- Build the `Person` for one `<persname>` tag, resolving the occupation
through the lookup table exactly as lines 126–144 do. -/
def mkPerson (occD : AList String Occupation) (t : RawPersonTag) : Person :=
  { id := t.id
    name := normalize_text_titlecase t.text
    gender := t.gender.map normalize_text_titlecase
    age := t.age.bind pyInt
    occupation :=
      match t.occupation with
      | none => none
      | some s =>
        match alookup occD (normalize_text_titlecase s) with
        | some o => some (Sum.inr o)
        | none => some (Sum.inl (normalize_text_titlecase s)) }

/-- The `for p in defendant_tags + victim_tags` loop: builds the `persons`,
`defendants` and `victims` dictionaries; `none` models the
`return None` taken on a conflicting duplicate ID (lines 145–147). -/
def personsGo (occD : AList String Occupation) (defTags vicTags : List RawPersonTag) :
    List RawPersonTag → AList String Person × AList String Person × AList String Person →
    Option (AList String Person × AList String Person × AList String Person)
  | [], st => some st
  | t :: rest, (persons, defs, vics) =>
    let np := mkPerson occD t
    let clash := match alookup persons t.id with
                 | some old => !(decide (old = np))
                 | none => false
    if clash then none
    else
      let persons' := alistInsert persons t.id np
      let defs' := if t ∈ defTags then alistInsert defs t.id np else defs
      let vics' := if t ∉ defTags ∧ t ∈ vicTags then alistInsert vics t.id np else vics
      personsGo occD defTags vicTags rest (persons', defs', vics')

/-! ### Offence / Verdict / Punishment extraction (lines 155–294) -/

/-- Build one `Offence`: the victims list concatenates, over every
`offenceVictim` join group containing this offence's ID, the group's IDs that
resolve in the `victims` dictionary (lines 170–177; no deduplication). -/
def mkOffence (victims : AList String Person) (victim_joins : List (List String))
    (t : RawRsTag) : Offence :=
  { id := t.id
    category := t.category
    subcategory := t.subcategory
    description := normalize_text_titlecase t.text
    victims :=
      (victim_joins.filter (fun j => decide (t.id ∈ j))).flatMap
        (fun j => j.filterMap (alookup victims)) }

/-- Build one `Verdict` (lines 213–226). -/
def mkVerdict (t : RawVerdictTag) : Verdict :=
  { id := t.id, category := t.category, subcategory := t.subcategory }

/-- Build one `Punishment`: linked defendants are resolved against the whole
`persons` dictionary (lines 251–277). -/
def mkPunishment (persons : AList String Person) (punish_joins : List (List String))
    (t : RawRsTag) : Punishment :=
  { id := t.id
    category := t.category
    subcategory := t.subcategory
    description := normalize_text_titlecase t.text
    defendants :=
      (punish_joins.filter (fun j => decide (t.id ∈ j))).flatMap
        (fun j => j.filterMap (alookup persons)) }

/-- The shared shape of the offence/verdict/punishment extraction loops:
build the entity, fail the record (`none`) on a conflicting duplicate ID,
silently overwrite on an identical one. -/
def entLoop {τ α : Type} [DecidableEq α] (mk : τ → α) (key : τ → String) :
    List τ → AList String α → Option (AList String α)
  | [], acc => some acc
  | t :: rest, acc =>
    match alookup acc (key t) with
    | some old =>
      if old = mk t then entLoop mk key rest (alistInsert acc (key t) (mk t)) else none
    | none => entLoop mk key rest (alistInsert acc (key t) (mk t))

/-! ### Charge reconciliation (lines 296–348) -/

/-- The zero/one fallback shared by the three kinds (lines 305–314, 319–327,
330–338): an empty resolution is replaced by the record's single entity of
that kind (flag `true` = `corrected`), dropped (`none`) when the record does
not have exactly one; a nonempty resolution is kept unchanged. -/
def zeroOneCorrect {α : Type} : List α → AList String α → Option (List α × Bool)
  | [], [(_, v)] => some ([v], true)
  | [], _ => none
  | l, _ => some (l, false)

/-- Reconcile one `criminalCharge` join group against the verdict, defendant
and offence dictionaries.  `Except.error ()` models a failed `assert`;
`Except.ok none` models `continue` (the charge is dropped); the `Bool` in a
successful result records whether a correction was applied. -/
def reconcileGroup (vs : AList String Verdict) (ds : AList String Person)
    (os : AList String Offence) (group : List String) :
    Except Unit (Option (Bool × Charge)) :=
  match zeroOneCorrect (group.filterMap (alookup vs)) vs with
  | none => .ok none
  | some (cv, bV) =>
    match cv with
    | [v] =>
      match zeroOneCorrect (group.filterMap (alookup ds)) ds with
      | none => .ok none
      | some (cd, bD) =>
        match zeroOneCorrect (group.filterMap (alookup os)) os with
        | none => .ok none
        | some (co, bO) =>
          if 1 + cd.length + co.length = group.length then
            .ok (some (bV || bD || bO, ⟨cd, co, v⟩))
          else .error ()
    | _ => .error ()

/-- The `for charge_join in charge_joins` loop, threading the `corrected`
flag and the accumulated charge list. -/
def chargesLoop (vs : AList String Verdict) (ds : AList String Person)
    (os : AList String Offence) :
    List (List String) → Bool → List Charge → Except Unit (Bool × List Charge)
  | [], corr, acc => .ok (corr, acc)
  | g :: rest, corr, acc =>
    match reconcileGroup vs ds os g with
    | .error e => .error e
    | .ok none => chargesLoop vs ds os rest corr acc
    | .ok (some (b, ch)) => chargesLoop vs ds os rest (corr || b) (acc ++ [ch])

/-! ### `parse_trial_tag` (lines 99–365) -/

/-- `parse_trial_tag`: `Except.error` models a raised `AssertionError`,
`Except.ok none` the soft `return None` paths. -/
def parse_trial_tag (t : TrialTag) (occD : AList String Occupation) :
    Except Unit (Option TrialData) :=
  match personsGo occD t.defendant_tags t.victim_tags
      (t.defendant_tags ++ t.victim_tags) ([], [], []) with
  | none => .ok none
  | some (persons, defendants, victims) =>
    match entLoop (mkOffence victims t.victim_joins) (fun o => o.id) t.offence_tags [] with
    | none => .ok none
    | some offences =>
      match entLoop mkVerdict (fun v => v.id) t.verdict_tags [] with
      | none => .ok none
      | some verdicts =>
        match entLoop (mkPunishment persons t.punish_joins) (fun p => p.id)
            t.punishment_tags [] with
        | none => .ok none
        | some punishments =>
          match chargesLoop verdicts defendants offences t.charge_joins false [] with
          | .error e => .error e
          | .ok (corrected, charges) =>
            if charges.isEmpty then .ok none
            else .ok (some { date := t.date, id := t.id, corrected := corrected,
                             defendants := defendants, victims := victims,
                             offences := offences, verdicts := verdicts,
                             punishments := punishments, charges := charges })

/-! ### `parse_xml` (lines 367–383) and the corpus driver (lines 385–403) -/

/-- `parse_xml`: parse each trial tag in order; a raised error is re-raised
wrapped with the source file's name (`RuntimeError(f"Parse error in XML
{xml_path}")`), while soft `None` results are appended and processing
continues. -/
def parse_xml (name : String) (occD : AList String Occupation) :
    List TrialTag → Except (String × Unit) (List (Option TrialData))
  | [] => .ok []
  | t :: rest =>
    match parse_trial_tag t occD with
    | .error e => .error (name, e)
    | .ok r =>
      match parse_xml name occD rest with
      | .error err => .error err
      | .ok rs => .ok (r :: rs)

/-- `next(t.date for t in trials if t is not None)`: `none` models the raised
`StopIteration` when every element is null. -/
def firstSomeDate : List (Option TrialData) → Option Nat
  | [] => none
  | some t :: _ => some t.date
  | none :: rest => firstSomeDate rest

/-- The dict comprehension of lines 398–401, keyed by each file's first
non-null trial date; `none` models the `StopIteration` escaping it. -/
def collateAux (acc : AList Nat (List (Option TrialData))) :
    List (List (Option TrialData)) → Option (AList Nat (List (Option TrialData)))
  | [] => some acc
  | trials :: rest =>
    match firstSomeDate trials with
    | none => none
    | some d => collateAux (alistInsert acc d trials) rest

inductive DriverError : Type where
  | fileError (name : String) (e : Unit)
  | stopIteration
deriving DecidableEq, Repr

/-- `p.map(partial(parse_xml, ...), files)`: sequential semantics of the
parallel map (first raised error wins, as the pool re-raises it). -/
def parseXmlFiles (occD : AList String Occupation) :
    List (String × List TrialTag) → Except (String × Unit) (List (List (Option TrialData)))
  | [] => .ok []
  | (name, tags) :: rest =>
    match parse_xml name occD tags with
    | .error e => .error e
    | .ok l =>
      match parseXmlFiles occD rest with
      | .error e => .error e
      | .ok ls => .ok (l :: ls)

/-- `process_data_xml_folder_to_trials_per_date`, over already-selected files
(each given as name plus its trial tags). -/
def process_data_xml_folder_to_trials_per_date (occD : AList String Occupation)
    (files : List (String × List TrialTag)) :
    Except DriverError (AList Nat (List (Option TrialData))) :=
  match parseXmlFiles occD files with
  | .error (n, e) => .error (.fileError n e)
  | .ok lists =>
    match collateAux [] lists with
    | none => .error .stopIteration
    | some d => .ok d

/-! ### `find_victorian_files` (lines 15–31) -/

/-- Python `\w` over ASCII. -/
def isWordChar (c : Char) : Bool := c.isAlphanum || c = '_'

/-- Does the character list start with `.xml` (the literal `\.xml` of the
pattern)? -/
def dotXmlAt : List Char → Bool
  | '.' :: 'x' :: 'm' :: 'l' :: _ => true
  | _ => false

/-- Backtracking match of `[\w]+\.xml` at the start of the list: at least one
word character, then `.xml`. -/
def wordThenXml : List Char → Bool
  | [] => false
  | c :: rest => isWordChar c && (dotXmlAt rest || wordThenXml rest)

/-- `re.match(r'(\d\d\d\d)[\w]+\.xml', name)`, returning the year group. -/
def xmlYearOf (name : String) : Option Nat :=
  match name.data with
  | c1 :: c2 :: c3 :: c4 :: rest =>
    if c1.isDigit && c2.isDigit && c3.isDigit && c4.isDigit && wordThenXml rest then
      some ((((c1.toNat - 48) * 10 + (c2.toNat - 48)) * 10 + (c3.toNat - 48)) * 10
            + (c4.toNat - 48))
    else none
  | _ => none

/-- `glob("*.xml")`: the file name ends with `.xml`. -/
def globXml (s : String) : Bool := List.isSuffixOf ".xml".data s.data

/-- `find_victorian_files` over a directory listing: keep the `*.xml` names
(the glob), keep those whose leading 4-digit year is in range, sort. -/
def find_victorian_files (names : List String) (min_year max_year : Nat) : List String :=
  (((names.filter (fun n => globXml n)).filter
      (fun n =>
        match xmlYearOf n with
        | some y => decide (min_year ≤ y) && decide (y ≤ max_year)
        | none => false))).mergeSort (fun a b => decide (a ≤ b))

/-! ### `parse_occupation_csv` (lines 405–432) -/

/-- Build one `Occupation` from a CSV row's class and skill cells:
`working_class` is `None` only when its cell is, `skilled` maps `y`/`n`
through `str()` of the cell (lines 415–431). -/
def mkCsvOccupation (n : String) (wc sk : Option String) : Occupation :=
  { name := n
    working_class :=
      match wc with
      | none => none
      | some w => some (decide (pyStrip (pyLower w) = "w"))
    skilled :=
      if pyStrip (pyLower (pyStr sk)) = "y" then some true
      else if pyStrip (pyLower (pyStr sk)) = "n" then some false
      else none }

/-- The row loop of `parse_occupation_csv`: skip null names and names without
an ASCII letter, insert the rest. -/
def occCsvGo (acc : AList String Occupation) :
    List (Option String × Option String × Option String) → AList String Occupation
  | [] => acc
  | (occName, wc, sk) :: rest =>
    match occName with
    | none => occCsvGo acc rest
    | some n =>
      if hasAlpha n then occCsvGo (alistInsert acc n (mkCsvOccupation n wc sk)) rest
      else occCsvGo acc rest

/-- `parse_occupation_csv` over the table's rows
`(Occupation cell, class cell, skilled cell)`. -/
def parse_occupation_csv (rows : List (Option String × Option String × Option String)) :
    AList String Occupation :=
  occCsvGo [] rows

/-! ### Concrete fixtures used by counterexamples and witnesses -/

def pD1 : RawPersonTag := ⟨"p1", "alice smith", some "female", some "30", none⟩

def pD1conflict : RawPersonTag := ⟨"p1", "different name", none, none, none⟩

def pD2 : RawPersonTag := ⟨"p2", "bob jones", some "male", none, none⟩

def pV1 : RawPersonTag := ⟨"p9", "carol white", none, none, none⟩

def oT1 : RawRsTag := ⟨"o1", "theft", some "grandLarceny", "stealing a watch"⟩

def oT1conflict : RawRsTag := ⟨"o1", "deception", none, "other text"⟩

def uT1 : RawRsTag := ⟨"u1", "imprison", none, "confined one year"⟩

def uT1conflict : RawRsTag := ⟨"u1", "death", none, "hanged"⟩

def vT1 : RawVerdictTag := ⟨"v1", "guilty", none⟩

def vT1conflict : RawVerdictTag := ⟨"v1", "notGuilty", none⟩

def aliceP : Person := ⟨"Alice Smith", "p1", some "Female", some 30, none⟩

def bobP : Person := ⟨"Bob Jones", "p2", some "Male", none, none⟩

def carolP : Person := ⟨"Carol White", "p9", none, none, none⟩

def watchO : Offence := ⟨"o1", "theft", some "grandLarceny", "Stealing A Watch", []⟩

def watchOcarol2 : Offence :=
  ⟨"o1", "theft", some "grandLarceny", "Stealing A Watch", [carolP, carolP]⟩

def guiltyV : Verdict := ⟨"v1", "guilty", none⟩

/-- Trial whose only charge join `[p1, o1]` omits a verdict ID entirely
(no dangling ID), while exactly one verdict exists in the record. -/
def ct1 : TrialTag :=
  ⟨"t1", 18450101, [pD1], [], [oT1], [], [vT1], [], [], [["p1", "o1"]]⟩

/-- Fully well-formed trial: the charge join names the defendant, the offence
and the verdict. -/
def ctGood : TrialTag :=
  ⟨"t2", 18450101, [pD1], [], [oT1], [], [vT1], [], [], [["p1", "o1", "v1"]]⟩

/-- The `TrialData` produced for `ctGood`. -/
def tdGood : TrialData :=
  ⟨18450101, "t2", false, [("p1", aliceP)], [], [("o1", watchO)], [("v1", guiltyV)], [],
   [⟨[aliceP], [watchO], guiltyV⟩]⟩

/-- Trial whose charge join names a dangling verdict ID `vX`, with exactly
one verdict in the record: the correction path that succeeds. -/
def ctCorr : TrialTag :=
  ⟨"t3", 18450101, [pD1], [], [oT1], [], [vT1], [], [], [["p1", "o1", "vX"]]⟩

/-- The `TrialData` produced for `ctCorr` (note `corrected = true`). -/
def tdCorr : TrialData :=
  ⟨18450101, "t3", true, [("p1", aliceP)], [], [("o1", watchO)], [("v1", guiltyV)], [],
   [⟨[aliceP], [watchO], guiltyV⟩]⟩

/-- Trial containing the same person ID `p1` twice with conflicting field
values. -/
def ct4 : TrialTag :=
  ⟨"t4", 18450101, [pD1, pD1conflict], [], [oT1], [], [vT1], [], [],
   [["p1", "o1", "v1"]]⟩

/-- Trial whose single charge join resolves two defendant IDs. -/
def ct5 : TrialTag :=
  ⟨"t5", 18450101, [pD1, pD2], [], [oT1], [], [vT1], [], [],
   [["p1", "p2", "o1", "v1"]]⟩

/-- The `TrialData` produced for `ct5`: one charge with two defendants. -/
def td5 : TrialData :=
  ⟨18450101, "t5", false, [("p1", aliceP), ("p2", bobP)], [], [("o1", watchO)],
   [("v1", guiltyV)], [], [⟨[aliceP, bobP], [watchO], guiltyV⟩]⟩

/-- Trial in which two distinct `offenceVictim` join groups name the same
offence-victim pair `(o1, p9)`. -/
def ct7 : TrialTag :=
  ⟨"t7", 18450101, [pD1], [pV1], [oT1], [["o1", "p9"], ["o1", "p9"]], [vT1], [],
   [], [["p1", "o1", "v1"]]⟩

/-- The `TrialData` produced for `ct7`: Carol appears twice in the offence's
victims list. -/
def td7 : TrialData :=
  ⟨18450101, "t7", false, [("p1", aliceP)], [("p9", carolP)], [("o1", watchOcarol2)],
   [("v1", guiltyV)], [], [⟨[aliceP], [watchOcarol2], guiltyV⟩]⟩

/-- Trial whose two verdict tags share the ID `v1` with different categories. -/
def ctVerDup : TrialTag :=
  ⟨"t8", 18450101, [pD1], [], [oT1], [], [vT1, vT1conflict], [], [],
   [["p1", "o1", "v1"]]⟩

/-- Trial whose two offence tags share the ID `o1` with different categories. -/
def ctOffDup : TrialTag :=
  ⟨"t9", 18450101, [pD1], [], [oT1, oT1conflict], [], [vT1], [], [],
   [["p1", "o1", "v1"]]⟩

/-- Trial whose two punishment tags share the ID `u1` with different
categories. -/
def ctPunDup : TrialTag :=
  ⟨"t10", 18450101, [pD1], [], [oT1], [], [vT1], [uT1, uT1conflict], [],
   [["p1", "o1", "v1"]]⟩

/-! ### Helper lemmas -/

theorem alookup_alistInsert_self {κ α : Type} [DecidableEq κ] {l : AList κ α} {k : κ}
    {v : α} (h : alookup l k = some v) : alistInsert l k v = l := by
  induction l with
  | nil => simp [alookup] at h
  | cons hd tl ih =>
    obtain ⟨k', v'⟩ := hd
    by_cases hk : k' = k
    · subst hk
      have h' : v' = v := by simpa [alookup] using h
      subst h'
      simp [alistInsert]
    · simp only [alookup, if_neg hk] at h
      simp [alistInsert, hk, ih h]

theorem alookup_alistInsert {κ α : Type} [DecidableEq κ] (l : AList κ α) (k : κ)
    (v : α) (k' : κ) :
    alookup (alistInsert l k v) k' = if k = k' then some v else alookup l k' := by
  induction l with
  | nil => simp [alistInsert, alookup]
  | cons hd tl ih =>
    obtain ⟨k₀, v₀⟩ := hd
    by_cases hk : k₀ = k
    · subst hk
      by_cases hk' : k₀ = k'
      · subst hk'; simp [alistInsert, alookup]
      · simp [alistInsert, alookup, hk']
    · by_cases hk' : k₀ = k'
      · subst hk'
        have : ¬ k = k₀ := fun h => hk h.symm
        simp [alistInsert, alookup, hk, this]
      · simp [alistInsert, alookup, hk, hk', ih]

/-- An identically re-extracted entity ID leaves the dictionary unchanged and
does not fail the loop. -/
theorem entLoop_cons_dup_eq {τ α : Type} [DecidableEq α] (mk : τ → α) (key : τ → String)
    (t : τ) (rest : List τ) (acc : AList String α)
    (h : alookup acc (key t) = some (mk t)) :
    entLoop mk key (t :: rest) acc = entLoop mk key rest acc := by
  simp [entLoop, h, alookup_alistInsert_self h]

/-- A conflicting re-extracted entity ID fails the loop. -/
theorem entLoop_cons_dup_ne {τ α : Type} [DecidableEq α] (mk : τ → α) (key : τ → String)
    (t : τ) (rest : List τ) (acc : AList String α) (old : α)
    (h : alookup acc (key t) = some old) (hne : old ≠ mk t) :
    entLoop mk key (t :: rest) acc = none := by
  simp [entLoop, h, hne]

/-- An identically re-extracted person ID leaves the `persons` dictionary
unchanged and continues the loop. -/
theorem personsGo_cons_dup_eq (occD : AList String Occupation)
    (defTags vicTags : List RawPersonTag) (t : RawPersonTag) (rest : List RawPersonTag)
    (persons defs vics : AList String Person)
    (h : alookup persons t.id = some (mkPerson occD t)) :
    personsGo occD defTags vicTags (t :: rest) (persons, defs, vics) =
      personsGo occD defTags vicTags rest
        (persons,
         (if t ∈ defTags then alistInsert defs t.id (mkPerson occD t) else defs),
         (if t ∉ defTags ∧ t ∈ vicTags then alistInsert vics t.id (mkPerson occD t)
          else vics)) := by
  simp [personsGo, h, alookup_alistInsert_self h]

/-- A conflicting re-extracted person ID fails the loop. -/
theorem personsGo_cons_dup_ne (occD : AList String Occupation)
    (defTags vicTags : List RawPersonTag) (t : RawPersonTag) (rest : List RawPersonTag)
    (persons defs vics : AList String Person) (old : Person)
    (h : alookup persons t.id = some old) (hne : old ≠ mkPerson occD t) :
    personsGo occD defTags vicTags (t :: rest) (persons, defs, vics) = none := by
  simp [personsGo, h, hne]

/-- A failed person loop makes the whole record parse return the soft null
result. -/
theorem parse_trial_tag_persons_none (t : TrialTag) (occD : AList String Occupation)
    (h : personsGo occD t.defendant_tags t.victim_tags
      (t.defendant_tags ++ t.victim_tags) ([], [], []) = none) :
    parse_trial_tag t occD = .ok none := by
  unfold parse_trial_tag
  rw [h]

/-- A failed offence loop makes the whole record parse return the soft null
result. -/
theorem parse_trial_tag_offences_none (t : TrialTag) (occD : AList String Occupation)
    (persons defendants victims : AList String Person)
    (hp : personsGo occD t.defendant_tags t.victim_tags
      (t.defendant_tags ++ t.victim_tags) ([], [], []) = some (persons, defendants, victims))
    (h : entLoop (mkOffence victims t.victim_joins) (fun o => o.id)
      t.offence_tags [] = none) :
    parse_trial_tag t occD = .ok none := by
  simp [parse_trial_tag, hp, h]

/-- A failed verdict loop makes the whole record parse return the soft null
result. -/
theorem parse_trial_tag_verdicts_none (t : TrialTag) (occD : AList String Occupation)
    (persons defendants victims : AList String Person) (offences : AList String Offence)
    (hp : personsGo occD t.defendant_tags t.victim_tags
      (t.defendant_tags ++ t.victim_tags) ([], [], []) = some (persons, defendants, victims))
    (ho : entLoop (mkOffence victims t.victim_joins) (fun o => o.id)
      t.offence_tags [] = some offences)
    (h : entLoop mkVerdict (fun v => v.id) t.verdict_tags [] = none) :
    parse_trial_tag t occD = .ok none := by
  simp [parse_trial_tag, hp, ho, h]

/-- A failed punishment loop makes the whole record parse return the soft
null result. -/
theorem parse_trial_tag_punishments_none (t : TrialTag) (occD : AList String Occupation)
    (persons defendants victims : AList String Person) (offences : AList String Offence)
    (verdicts : AList String Verdict)
    (hp : personsGo occD t.defendant_tags t.victim_tags
      (t.defendant_tags ++ t.victim_tags) ([], [], []) = some (persons, defendants, victims))
    (ho : entLoop (mkOffence victims t.victim_joins) (fun o => o.id)
      t.offence_tags [] = some offences)
    (hv : entLoop mkVerdict (fun v => v.id) t.verdict_tags [] = some verdicts)
    (h : entLoop (mkPunishment persons t.punish_joins) (fun p => p.id)
      t.punishment_tags [] = none) :
    parse_trial_tag t occD = .ok none := by
  simp [parse_trial_tag, hp, ho, hv, h]

/-- An assertion failure in the charge loop is the record parse's raised
error. -/
theorem parse_trial_tag_charges_error (t : TrialTag) (occD : AList String Occupation)
    (persons defendants victims : AList String Person) (offences : AList String Offence)
    (verdicts : AList String Verdict) (punishments : AList String Punishment) (e : Unit)
    (hp : personsGo occD t.defendant_tags t.victim_tags
      (t.defendant_tags ++ t.victim_tags) ([], [], []) = some (persons, defendants, victims))
    (ho : entLoop (mkOffence victims t.victim_joins) (fun o => o.id)
      t.offence_tags [] = some offences)
    (hv : entLoop mkVerdict (fun v => v.id) t.verdict_tags [] = some verdicts)
    (hu : entLoop (mkPunishment persons t.punish_joins) (fun p => p.id)
      t.punishment_tags [] = some punishments)
    (h : chargesLoop verdicts defendants offences t.charge_joins false [] = .error e) :
    parse_trial_tag t occD = .error e := by
  simp [parse_trial_tag, hp, ho, hv, hu, h]

/-- Unfolding equation for `parse_xml` on a nonempty tag list. -/
theorem parse_xml_cons (name : String) (occD : AList String Occupation)
    (t : TrialTag) (rest : List TrialTag) :
    parse_xml name occD (t :: rest) =
      match parse_trial_tag t occD with
      | .error e => .error (name, e)
      | .ok r =>
        match parse_xml name occD rest with
        | .error err => .error err
        | .ok rs => .ok (r :: rs) := rfl

/-- A soft-null record is appended to the file's result list and parsing of
the file continues. -/
theorem parse_xml_cons_ok (name : String) (occD : AList String Occupation)
    (t : TrialTag) (rest : List TrialTag) (r : Option TrialData)
    (h : parse_trial_tag t occD = .ok r) :
    parse_xml name occD (t :: rest) =
      (parse_xml name occD rest).map (fun l => r :: l) := by
  rw [parse_xml_cons, h]
  cases hrest : parse_xml name occD rest <;> simp [Except.map]

/-- A raised record error is re-raised wrapped with the file's name. -/
theorem parse_xml_cons_error (name : String) (occD : AList String Occupation)
    (t : TrialTag) (rest : List TrialTag) (e : Unit)
    (h : parse_trial_tag t occD = .error e) :
    parse_xml name occD (t :: rest) = .error (name, e) := by
  rw [parse_xml_cons, h]

/-- A raised record error aborts the file no matter how many records parsed
before it. -/
theorem parse_xml_append_error (name : String) (occD : AList String Occupation)
    (pre : List TrialTag) (t : TrialTag) (rest : List TrialTag)
    (l : List (Option TrialData)) (e : Unit)
    (hpre : parse_xml name occD pre = .ok l) (ht : parse_trial_tag t occD = .error e) :
    parse_xml name occD (pre ++ t :: rest) = .error (name, e) := by
  induction pre generalizing l with
  | nil => simpa using parse_xml_cons_error name occD t rest e ht
  | cons p ps ih =>
    rw [List.cons_append, parse_xml_cons]
    rw [parse_xml_cons] at hpre
    cases hp : parse_trial_tag p occD with
    | error e2 => rw [hp] at hpre
    | ok r =>
      rw [hp] at hpre
      cases hps : parse_xml name occD ps with
      | error err =>
        rw [hps] at hpre
        simp at hpre
      | ok l2 =>
        rw [ih l2 hps]

/-- A result list whose entries are all null has no first non-null date. -/
theorem firstSomeDate_eq_none (l : List (Option TrialData)) (h : ∀ x ∈ l, x = none) :
    firstSomeDate l = none := by
  induction l with
  | nil => rfl
  | cons hd tl ih =>
    cases hd with
    | none => exact ih (fun x hx => h x (List.mem_cons_of_mem _ hx))
    | some t => exact absurd (h (some t) (List.mem_cons_self _ _)) (by simp)

/-- The date-keyed collation fails as soon as some file's results are all
null. -/
theorem collateAux_none (lists : List (List (Option TrialData)))
    (l : List (Option TrialData)) (hl : l ∈ lists) (h : ∀ x ∈ l, x = none)
    (acc : AList Nat (List (Option TrialData))) : collateAux acc lists = none := by
  induction lists generalizing acc with
  | nil => cases hl
  | cons hd tl ih =>
    rcases List.mem_cons.mp hl with rfl | hmem
    · unfold collateAux
      rw [firstSomeDate_eq_none l h]
    · unfold collateAux
      cases hfd : firstSomeDate hd with
      | none => rfl
      | some d => exact ih hmem _

/-- A nonempty resolution is kept as is. -/
theorem zeroOneCorrect_cons {α : Type} (a : α) (l : List α) (m : AList String α) :
    zeroOneCorrect (a :: l) m = some (a :: l, false) := rfl

/-- An empty resolution with exactly one entity overall substitutes it and
flags the correction. -/
theorem zeroOneCorrect_nil_one {α : Type} (k : String) (x : α) :
    zeroOneCorrect ([] : List α) [(k, x)] = some ([x], true) := rfl

/-- An empty resolution with no entity overall drops the charge. -/
theorem zeroOneCorrect_nil_nil {α : Type} :
    zeroOneCorrect ([] : List α) ([] : AList String α) = none := rfl

/-- An empty resolution with two or more entities overall drops the charge. -/
theorem zeroOneCorrect_nil_big {α : Type} (k₁ k₂ : String) (x₁ x₂ : α)
    (rest : AList String α) :
    zeroOneCorrect ([] : List α) ((k₁, x₁) :: (k₂, x₂) :: rest) = none := rfl

/-- Every key of the loaded occupation table has an ASCII letter. -/
theorem occCsvGo_hasAlpha (rows : List (Option String × Option String × Option String))
    (acc : AList String Occupation) (n : String)
    (h : (alookup (occCsvGo acc rows) n).isSome = true) :
    (alookup acc n).isSome = true ∨ hasAlpha n = true := by
  induction rows generalizing acc with
  | nil => exact Or.inl h
  | cons row rest ih =>
    obtain ⟨occName, wc, sk⟩ := row
    cases occName with
    | none => exact ih _ h
    | some m =>
      by_cases hm : hasAlpha m = true
      · simp only [occCsvGo, hm, if_true] at h
        rcases ih _ h with hacc | hn
        · rw [alookup_alistInsert] at hacc
          by_cases hmn : m = n
          · subst hmn
            exact Or.inr hm
          · rw [if_neg hmn] at hacc
            exact Or.inl hacc
        · exact Or.inr hn
      · simp only [occCsvGo, hm, if_false] at h
        exact ih _ h

/-! ### Claim theorems -/

/-- C1 counterexample: the record `ct1` has exactly one verdict overall and a
charge join group `[p1, o1]` resolving zero verdict IDs, yet `parse_trial_tag`
raises the count-check assertion (the substituted verdict makes the three
resolved lists sum to 3 while the group has 2 IDs) instead of returning a
`TrialData` with `corrected = true` and a non-null `Charge`. -/
theorem c1_counterexample : parse_trial_tag ct1 [] = .error () := rfl

/-- C1 (amended): an empty resolution of any one kind with exactly one entity
of that kind record-wide substitutes that entity and flags the correction;
the charge group then yields a non-null `Charge` (carrying the substituted
entity) precisely when the group's total ID count equals the combined
post-substitution counts — e.g. when the group named one dangling ID for the
missing kind — and otherwise the count-check assertion fails, which is fatal
to the record. -/
theorem c1_amended_thm :
    (∀ (α : Type) (k : String) (x : α),
        zeroOneCorrect ([] : List α) [(k, x)] = some ([x], true))
    ∧ (∀ (vs : AList String Verdict) (ds : AList String Person)
          (os : AList String Offence) (group : List String) (k : String) (v : Verdict),
        group.filterMap (alookup vs) = [] → vs = [(k, v)] →
        group.filterMap (alookup ds) ≠ [] → group.filterMap (alookup os) ≠ [] →
        reconcileGroup vs ds os group =
          if 1 + (group.filterMap (alookup ds)).length +
              (group.filterMap (alookup os)).length = group.length then
            .ok (some (true, ⟨group.filterMap (alookup ds),
                              group.filterMap (alookup os), v⟩))
          else .error ())
    ∧ (∀ (vs : AList String Verdict) (ds : AList String Person)
          (os : AList String Offence) (group : List String) (k : String)
          (p : Person) (v : Verdict),
        group.filterMap (alookup vs) = [v] →
        group.filterMap (alookup ds) = [] → ds = [(k, p)] →
        group.filterMap (alookup os) ≠ [] →
        reconcileGroup vs ds os group =
          if 1 + 1 + (group.filterMap (alookup os)).length = group.length then
            .ok (some (true, ⟨[p], group.filterMap (alookup os), v⟩))
          else .error ())
    ∧ (∀ (vs : AList String Verdict) (ds : AList String Person)
          (os : AList String Offence) (group : List String) (k : String)
          (o : Offence) (v : Verdict),
        group.filterMap (alookup vs) = [v] →
        group.filterMap (alookup ds) ≠ [] →
        group.filterMap (alookup os) = [] → os = [(k, o)] →
        reconcileGroup vs ds os group =
          if 1 + (group.filterMap (alookup ds)).length + 1 = group.length then
            .ok (some (true, ⟨group.filterMap (alookup ds), [o], v⟩))
          else .error ()) := by
  refine ⟨fun α k x => zeroOneCorrect_nil_one k x, ?_, ?_, ?_⟩
  · intro vs ds os group k v hv hvs hd ho
    obtain ⟨d, cd, hcd⟩ := List.exists_cons_of_ne_nil hd
    obtain ⟨o, co, hco⟩ := List.exists_cons_of_ne_nil ho
    have h1 : zeroOneCorrect (group.filterMap (alookup vs)) vs = some ([v], true) := by
      rw [hv, hvs]
      exact zeroOneCorrect_nil_one k v
    have h2 : zeroOneCorrect (group.filterMap (alookup ds)) ds
        = some (d :: cd, false) := by
      rw [hcd]
      exact zeroOneCorrect_cons d cd ds
    have h3 : zeroOneCorrect (group.filterMap (alookup os)) os
        = some (o :: co, false) := by
      rw [hco]
      exact zeroOneCorrect_cons o co os
    rw [hcd, hco]
    simp only [reconcileGroup, h1, h2, h3, Bool.true_or, Bool.or_false, Bool.or_true]
  · intro vs ds os group k p v hv hd hds ho
    obtain ⟨o, co, hco⟩ := List.exists_cons_of_ne_nil ho
    have h1 : zeroOneCorrect (group.filterMap (alookup vs)) vs = some ([v], false) := by
      rw [hv]
      exact zeroOneCorrect_cons v [] vs
    have h2 : zeroOneCorrect (group.filterMap (alookup ds)) ds = some ([p], true) := by
      rw [hd, hds]
      exact zeroOneCorrect_nil_one k p
    have h3 : zeroOneCorrect (group.filterMap (alookup os)) os
        = some (o :: co, false) := by
      rw [hco]
      exact zeroOneCorrect_cons o co os
    rw [hco]
    simp only [reconcileGroup, h1, h2, h3, Bool.false_or, Bool.or_false, Bool.true_or,
      List.length_singleton]
  · intro vs ds os group k o v hv hd ho hos
    obtain ⟨d, cd, hcd⟩ := List.exists_cons_of_ne_nil hd
    have h1 : zeroOneCorrect (group.filterMap (alookup vs)) vs = some ([v], false) := by
      rw [hv]
      exact zeroOneCorrect_cons v [] vs
    have h2 : zeroOneCorrect (group.filterMap (alookup ds)) ds
        = some (d :: cd, false) := by
      rw [hcd]
      exact zeroOneCorrect_cons d cd ds
    have h3 : zeroOneCorrect (group.filterMap (alookup os)) os = some ([o], true) := by
      rw [ho, hos]
      exact zeroOneCorrect_nil_one k o
    rw [hcd]
    simp only [reconcileGroup, h1, h2, h3, Bool.false_or, Bool.or_true,
      List.length_singleton]

/-- C1 witness: the amended theorem applied to `ctCorr`-shaped concrete data.
With the dangling ID `vX` in the group, the count check passes and the
corrected charge is emitted; with the two-ID group of `ct1` it fails. -/
theorem c1_witness :
    reconcileGroup [("v1", guiltyV)] [("p1", aliceP)] [("o1", watchO)]
        ["p1", "o1", "vX"] = .ok (some (true, ⟨[aliceP], [watchO], guiltyV⟩))
    ∧ reconcileGroup [("v1", guiltyV)] [("p1", aliceP)] [("o1", watchO)]
        ["p1", "o1"] = .error () := by
  constructor
  · have h := c1_amended_thm.2.1 [("v1", guiltyV)] [("p1", aliceP)] [("o1", watchO)]
      ["p1", "o1", "vX"] "v1" guiltyV (by decide) rfl (by decide) (by decide)
    rw [h]
    rfl
  · have h := c1_amended_thm.2.1 [("v1", guiltyV)] [("p1", aliceP)] [("o1", watchO)]
      ["p1", "o1"] "v1" guiltyV (by decide) rfl (by decide) (by decide)
    rw [h]
    rfl

/-- C2: every non-null `TrialData` returned by `parse_trial_tag` has a
non-empty `charges` list (a record whose charge groups all drop returns the
null result instead). -/
theorem c2_nonempty_charges (t : TrialTag) (occD : AList String Occupation)
    (td : TrialData) (h : parse_trial_tag t occD = .ok (some td)) :
    td.charges ≠ [] := by
  unfold parse_trial_tag at h
  split at h
  · exact absurd h (by simp)
  split at h
  · exact absurd h (by simp)
  split at h
  · exact absurd h (by simp)
  split at h
  · exact absurd h (by simp)
  split at h
  · exact absurd h (by simp)
  split at h
  · exact absurd h (by simp)
  · rename_i corrected charges heqM hcond
    have h' := Option.some.inj (Except.ok.inj h)
    subst h'
    intro hcontra
    have hch : charges = [] := hcontra
    rw [hch] at hcond
    exact hcond rfl

/-- C2 witness: `ctGood` parses to a non-null `TrialData` whose charge list
is non-empty. -/
theorem c2_witness : tdGood.charges ≠ [] :=
  c2_nonempty_charges ctGood [] tdGood rfl

/-- C3: duplicate-ID policy for all four entity kinds.  Re-extracting an ID
with identical field values is accepted silently (the dictionary and the
loop's continuation are unchanged); re-extracting it with different values
fails the loop, and a failed loop of any kind makes `parse_trial_tag` discard
the whole record. -/
theorem c3_duplicate_id_policy :
    (∀ (τ α : Type) [DecidableEq α] (mk : τ → α) (key : τ → String)
        (t : τ) (rest : List τ) (acc : AList String α),
        alookup acc (key t) = some (mk t) →
        entLoop mk key (t :: rest) acc = entLoop mk key rest acc)
    ∧ (∀ (τ α : Type) [DecidableEq α] (mk : τ → α) (key : τ → String)
        (t : τ) (rest : List τ) (acc : AList String α) (old : α),
        alookup acc (key t) = some old → old ≠ mk t →
        entLoop mk key (t :: rest) acc = none)
    ∧ (∀ (occD : AList String Occupation) (defTags vicTags : List RawPersonTag)
        (t : RawPersonTag) (rest : List RawPersonTag)
        (persons defs vics : AList String Person),
        alookup persons t.id = some (mkPerson occD t) →
        personsGo occD defTags vicTags (t :: rest) (persons, defs, vics) =
          personsGo occD defTags vicTags rest
            (persons,
             (if t ∈ defTags then alistInsert defs t.id (mkPerson occD t) else defs),
             (if t ∉ defTags ∧ t ∈ vicTags then alistInsert vics t.id (mkPerson occD t)
              else vics)))
    ∧ (∀ (occD : AList String Occupation) (defTags vicTags : List RawPersonTag)
        (t : RawPersonTag) (rest : List RawPersonTag)
        (persons defs vics : AList String Person) (old : Person),
        alookup persons t.id = some old → old ≠ mkPerson occD t →
        personsGo occD defTags vicTags (t :: rest) (persons, defs, vics) = none)
    ∧ (∀ (t : TrialTag) (occD : AList String Occupation),
        personsGo occD t.defendant_tags t.victim_tags
          (t.defendant_tags ++ t.victim_tags) ([], [], []) = none →
        parse_trial_tag t occD = .ok none)
    ∧ (∀ (t : TrialTag) (occD : AList String Occupation)
        (persons defendants victims : AList String Person),
        personsGo occD t.defendant_tags t.victim_tags
          (t.defendant_tags ++ t.victim_tags) ([], [], [])
            = some (persons, defendants, victims) →
        entLoop (mkOffence victims t.victim_joins) (fun o => o.id)
          t.offence_tags [] = none →
        parse_trial_tag t occD = .ok none)
    ∧ (∀ (t : TrialTag) (occD : AList String Occupation)
        (persons defendants victims : AList String Person)
        (offences : AList String Offence),
        personsGo occD t.defendant_tags t.victim_tags
          (t.defendant_tags ++ t.victim_tags) ([], [], [])
            = some (persons, defendants, victims) →
        entLoop (mkOffence victims t.victim_joins) (fun o => o.id)
          t.offence_tags [] = some offences →
        entLoop mkVerdict (fun v => v.id) t.verdict_tags [] = none →
        parse_trial_tag t occD = .ok none)
    ∧ (∀ (t : TrialTag) (occD : AList String Occupation)
        (persons defendants victims : AList String Person)
        (offences : AList String Offence) (verdicts : AList String Verdict),
        personsGo occD t.defendant_tags t.victim_tags
          (t.defendant_tags ++ t.victim_tags) ([], [], [])
            = some (persons, defendants, victims) →
        entLoop (mkOffence victims t.victim_joins) (fun o => o.id)
          t.offence_tags [] = some offences →
        entLoop mkVerdict (fun v => v.id) t.verdict_tags [] = some verdicts →
        entLoop (mkPunishment persons t.punish_joins) (fun p => p.id)
          t.punishment_tags [] = none →
        parse_trial_tag t occD = .ok none) := by
  refine ⟨?_, ?_, ?_, ?_, ?_, ?_, ?_, ?_⟩
  · intro τ α inst mk key t rest acc h
    exact entLoop_cons_dup_eq mk key t rest acc h
  · intro τ α inst mk key t rest acc old h hne
    exact entLoop_cons_dup_ne mk key t rest acc old h hne
  · intro occD defTags vicTags t rest persons defs vics h
    exact personsGo_cons_dup_eq occD defTags vicTags t rest persons defs vics h
  · intro occD defTags vicTags t rest persons defs vics old h hne
    exact personsGo_cons_dup_ne occD defTags vicTags t rest persons defs vics old h hne
  · intro t occD h
    exact parse_trial_tag_persons_none t occD h
  · intro t occD persons defendants victims hp h
    exact parse_trial_tag_offences_none t occD persons defendants victims hp h
  · intro t occD persons defendants victims offences hp ho h
    exact parse_trial_tag_verdicts_none t occD persons defendants victims offences hp ho h
  · intro t occD persons defendants victims offences verdicts hp ho hv h
    exact parse_trial_tag_punishments_none t occD persons defendants victims offences
      verdicts hp ho hv h

/-- C3 witness: concrete instantiations of each part of the duplicate-ID
policy — an identical verdict re-extraction is silent, a conflicting one
fails the loop, identical/conflicting person re-extractions behave the same,
and conflicting duplicates of each kind make the whole record parse null. -/
theorem c3_witness :
    entLoop mkVerdict (fun v => v.id) [vT1] [("v1", mkVerdict vT1)]
      = some [("v1", mkVerdict vT1)]
    ∧ entLoop mkVerdict (fun v => v.id) [vT1conflict] [("v1", mkVerdict vT1)] = none
    ∧ personsGo [] [pD1] [] [pD1] ([("p1", mkPerson [] pD1)], [], [])
      = some ([("p1", mkPerson [] pD1)], [("p1", mkPerson [] pD1)], [])
    ∧ personsGo [] [pD1conflict] [] [pD1conflict]
        ([("p1", mkPerson [] pD1)], [], []) = none
    ∧ parse_trial_tag ct4 [] = .ok none
    ∧ parse_trial_tag ctOffDup [] = .ok none
    ∧ parse_trial_tag ctVerDup [] = .ok none
    ∧ parse_trial_tag ctPunDup [] = .ok none := by
  have h := c3_duplicate_id_policy
  refine ⟨?_, ?_, ?_, ?_, ?_, ?_, ?_, ?_⟩
  · exact (h.1 RawVerdictTag Verdict mkVerdict (fun v => v.id) vT1 []
      [("v1", mkVerdict vT1)] (by decide)).trans rfl
  · exact h.2.1 RawVerdictTag Verdict mkVerdict (fun v => v.id) vT1conflict []
      [("v1", mkVerdict vT1)] (mkVerdict vT1) (by decide) (by decide)
  · exact (h.2.2.1 [] [pD1] [] pD1 [] [("p1", mkPerson [] pD1)] [] []
      (by decide)).trans rfl
  · exact h.2.2.2.1 [] [pD1conflict] [] pD1conflict [] [("p1", mkPerson [] pD1)]
      [] [] (mkPerson [] pD1) (by decide) (by decide)
  · exact h.2.2.2.2.1 ct4 [] rfl
  · exact h.2.2.2.2.2.1 ctOffDup [] [("p1", mkPerson [] pD1)]
      [("p1", mkPerson [] pD1)] [] rfl rfl
  · exact h.2.2.2.2.2.2.1 ctVerDup [] [("p1", mkPerson [] pD1)]
      [("p1", mkPerson [] pD1)] [] [("o1", mkOffence [] [] oT1)] rfl rfl rfl
  · exact h.2.2.2.2.2.2.2 ctPunDup [] [("p1", mkPerson [] pD1)]
      [("p1", mkPerson [] pD1)] [] [("o1", mkOffence [] [] oT1)]
      [("v1", mkVerdict vT1)] rfl rfl rfl rfl

/-- C4 counterexample: the record `ct4` defines person ID `p1` twice with
conflicting field values, yet no error propagates out of `parse_xml` — the
record degrades to a null entry in the file's result list and the file's
processing continues (the code reaches `return None`, not a raise). -/
theorem c4_counterexample :
    parse_trial_tag ct4 [] = .ok none
    ∧ parse_xml "18450101.xml" [] [ct4] = .ok [none] := ⟨rfl, rfl⟩

/-- C4 (amended): a duplicate ID with conflicting field values makes the
record extraction return the soft null result, which `parse_xml` records as
a null entry and continues; only raised errors (the reconciler's assertion
failures) propagate out of `parse_xml` as a wrapped error identifying the
source file and aborting the file's processing. -/
theorem c4_amended_thm :
    (∀ (occD : AList String Occupation) (defTags vicTags : List RawPersonTag)
        (t : RawPersonTag) (rest : List RawPersonTag)
        (persons defs vics : AList String Person) (old : Person),
        alookup persons t.id = some old → old ≠ mkPerson occD t →
        personsGo occD defTags vicTags (t :: rest) (persons, defs, vics) = none)
    ∧ (∀ (name : String) (occD : AList String Occupation) (t : TrialTag)
        (rest : List TrialTag),
        parse_trial_tag t occD = .ok none →
        parse_xml name occD (t :: rest) =
          (parse_xml name occD rest).map (fun l => none :: l))
    ∧ (∀ (name : String) (occD : AList String Occupation) (pre : List TrialTag)
        (t : TrialTag) (rest : List TrialTag) (l : List (Option TrialData)) (e : Unit),
        parse_xml name occD pre = .ok l → parse_trial_tag t occD = .error e →
        parse_xml name occD (pre ++ t :: rest) = .error (name, e)) := by
  refine ⟨?_, ?_, ?_⟩
  · intro occD defTags vicTags t rest persons defs vics old h hne
    exact personsGo_cons_dup_ne occD defTags vicTags t rest persons defs vics old h hne
  · intro name occD t rest h
    exact parse_xml_cons_ok name occD t rest none h
  · intro name occD pre t rest l e hpre ht
    exact parse_xml_append_error name occD pre t rest l e hpre ht

/-- C4 witness: the conflicting duplicate in `ct4` fails the person loop and
yields a null entry with the file continuing, while the assertion error of
`ct1` aborts the whole file even after an earlier good record. -/
theorem c4_witness :
    personsGo [] [pD1conflict] [] [pD1conflict] ([("p1", mkPerson [] pD1)], [], []) = none
    ∧ parse_xml "18450101.xml" [] [ct4, ctGood]
        = .ok [none, some tdGood]
    ∧ parse_xml "18450101.xml" [] [ctGood, ct1, ct4]
        = .error ("18450101.xml", ()) := by
  have h := c4_amended_thm
  refine ⟨?_, ?_, ?_⟩
  · exact h.1 [] [pD1conflict] [] pD1conflict [] [("p1", mkPerson [] pD1)] [] []
      (mkPerson [] pD1) (by decide) (by decide)
  · exact (h.2.1 "18450101.xml" [] ct4 [ctGood] rfl).trans rfl
  · exact h.2.2 "18450101.xml" [] [ctGood] ct1 [ct4] [some tdGood] () rfl rfl

/-- C5 counterexample: in `ct5` a single charge join resolves two defendant
IDs, and far from an assertion failure, the parse succeeds and the emitted
`Charge` carries both defendants. -/
theorem c5_counterexample :
    parse_trial_tag ct5 [] = .ok (some td5)
    ∧ td5.charges = [⟨[aliceP, bobP], [watchO], guiltyV⟩]
    ∧ (⟨[aliceP, bobP], [watchO], guiltyV⟩ : Charge).defendant.length = 2 :=
  ⟨rfl, rfl, rfl⟩

/-- C5 (amended): the exactly-one assertion applies only to verdicts; a
charge group whose defendant IDs resolve to any non-empty list (in
particular, to more than one defendant) is accepted as is, emitting a
`Charge` whose defendant list is exactly the resolved list. -/
theorem c5_amended_thm (vs : AList String Verdict) (ds : AList String Person)
    (os : AList String Offence) (group : List String) (v : Verdict)
    (hv : group.filterMap (alookup vs) = [v])
    (hd : group.filterMap (alookup ds) ≠ [])
    (ho : group.filterMap (alookup os) ≠ [])
    (hc : 1 + (group.filterMap (alookup ds)).length +
        (group.filterMap (alookup os)).length = group.length) :
    reconcileGroup vs ds os group =
      .ok (some (false, ⟨group.filterMap (alookup ds),
                         group.filterMap (alookup os), v⟩)) := by
  obtain ⟨d, cd, hcd⟩ := List.exists_cons_of_ne_nil hd
  obtain ⟨o, co, hco⟩ := List.exists_cons_of_ne_nil ho
  have h1 : zeroOneCorrect (group.filterMap (alookup vs)) vs = some ([v], false) := by
    rw [hv]
    exact zeroOneCorrect_cons v [] vs
  have h2 : zeroOneCorrect (group.filterMap (alookup ds)) ds
      = some (d :: cd, false) := by
    rw [hcd]
    exact zeroOneCorrect_cons d cd ds
  have h3 : zeroOneCorrect (group.filterMap (alookup os)) os
      = some (o :: co, false) := by
    rw [hco]
    exact zeroOneCorrect_cons o co os
  rw [hcd, hco] at hc ⊢
  simp only [reconcileGroup, h1, h2, h3, Bool.or_false, if_pos hc]

/-- C5 witness: the amended theorem applied to the two-defendant group of
`ct5`. -/
theorem c5_witness :
    reconcileGroup [("v1", guiltyV)] [("p1", aliceP), ("p2", bobP)] [("o1", watchO)]
        ["p1", "p2", "o1", "v1"]
      = .ok (some (false, ⟨[aliceP, bobP], [watchO], guiltyV⟩)) := by
  have h := c5_amended_thm [("v1", guiltyV)] [("p1", aliceP), ("p2", bobP)]
    [("o1", watchO)] ["p1", "p2", "o1", "v1"] guiltyV (by decide) (by decide)
    (by decide) (by decide)
  exact h.trans rfl

/-- C6: the reconciler's count check.  A `Charge` is emitted for a group only
when the verdict, defendant and offence list lengths (after any
substitution) sum to the group's total ID count; a mismatch after all three
resolutions pass is an assertion failure, which is the record parse's raised
error. -/
theorem c6_count_check :
    (∀ (vs : AList String Verdict) (ds : AList String Person)
        (os : AList String Offence) (group : List String) (c : Bool) (ch : Charge),
        reconcileGroup vs ds os group = .ok (some (c, ch)) →
        1 + ch.defendant.length + ch.offence.length = group.length)
    ∧ (∀ (vs : AList String Verdict) (ds : AList String Person)
        (os : AList String Offence) (group : List String) (v : Verdict)
        (bV bD bO : Bool) (cd : List Person) (co : List Offence),
        zeroOneCorrect (group.filterMap (alookup vs)) vs = some ([v], bV) →
        zeroOneCorrect (group.filterMap (alookup ds)) ds = some (cd, bD) →
        zeroOneCorrect (group.filterMap (alookup os)) os = some (co, bO) →
        1 + cd.length + co.length ≠ group.length →
        reconcileGroup vs ds os group = .error ())
    ∧ (∀ (t : TrialTag) (occD : AList String Occupation)
        (persons defendants victims : AList String Person)
        (offences : AList String Offence) (verdicts : AList String Verdict)
        (punishments : AList String Punishment) (e : Unit),
        personsGo occD t.defendant_tags t.victim_tags
          (t.defendant_tags ++ t.victim_tags) ([], [], [])
            = some (persons, defendants, victims) →
        entLoop (mkOffence victims t.victim_joins) (fun o => o.id)
          t.offence_tags [] = some offences →
        entLoop mkVerdict (fun v => v.id) t.verdict_tags [] = some verdicts →
        entLoop (mkPunishment persons t.punish_joins) (fun p => p.id)
          t.punishment_tags [] = some punishments →
        chargesLoop verdicts defendants offences t.charge_joins false [] = .error e →
        parse_trial_tag t occD = .error e) := by
  refine ⟨?_, ?_, ?_⟩
  · intro vs ds os group c ch h
    unfold reconcileGroup at h
    split at h
    · exact absurd h (by simp)
    split at h
    · split at h
      · exact absurd h (by simp)
      split at h
      · exact absurd h (by simp)
      split at h
      · rename_i hlen
        have h' := Option.some.inj (Except.ok.inj h)
        have hch := congrArg Prod.snd h'
        dsimp only at hch
        rw [← hch]
        exact hlen
      · exact absurd h (by simp)
    · exact absurd h (by simp)
  · intro vs ds os group v bV bD bO cd co h1 h2 h3 hne
    simp only [reconcileGroup, h1, h2, h3, if_neg hne]
  · intro t occD persons defendants victims offences verdicts punishments e hp ho hv hu h
    exact parse_trial_tag_charges_error t occD persons defendants victims offences
      verdicts punishments e hp ho hv hu h

/-- C6 witness: the count check at work on concrete groups — a matching count
emits the charge, a dangling-free corrected group trips the assertion, and
`ct1`'s record-level parse raises. -/
theorem c6_witness :
    1 + ([aliceP] : List Person).length + ([watchO] : List Offence).length
      = (["p1", "o1", "v1"] : List String).length
    ∧ reconcileGroup [("v1", guiltyV)] [("p1", aliceP)] [("o1", watchO)]
        ["p1", "o1", "extra", "ids"] = .error ()
    ∧ parse_trial_tag ct1 [] = .error () := by
  have h := c6_count_check
  refine ⟨?_, ?_, ?_⟩
  · exact h.1 [("v1", guiltyV)] [("p1", aliceP)] [("o1", watchO)] ["p1", "o1", "v1"]
      false ⟨[aliceP], [watchO], guiltyV⟩ rfl
  · exact h.2.1 [("v1", guiltyV)] [("p1", aliceP)] [("o1", watchO)]
      ["p1", "o1", "extra", "ids"] guiltyV true false false [aliceP] [watchO]
      rfl rfl rfl (by decide)
  · exact h.2.2 ct1 [] [("p1", aliceP)] [("p1", aliceP)] [] [("o1", watchO)]
      [("v1", guiltyV)] [] () rfl rfl rfl rfl rfl

/-- C7 counterexample: in `ct7` the pair `(o1, p9)` is named by two separate
`offenceVictim` join groups, and the extracted offence's victims list
contains Carol twice — victims are not deduplicated across join groups. -/
theorem c7_counterexample :
    parse_trial_tag ct7 [] = .ok (some td7)
    ∧ alookup td7.offences "o1" = some watchOcarol2
    ∧ watchOcarol2.victims = [carolP, carolP]
    ∧ watchOcarol2.victims.count carolP = 2 := ⟨rfl, rfl, rfl, rfl⟩

/-- C7 (amended): an offence's victims list contains exactly (as a set) the
victim-role Person entities whose ID appears in a join group that also
contains the offence's ID; the list is the concatenation of the per-group
resolutions, so a victim does appear once per naming group (duplicated when
two groups name the same pair) rather than at most once. -/
theorem c7_amended_thm (victims : AList String Person) (joins : List (List String))
    (t : RawRsTag) (p : Person) :
    p ∈ (mkOffence victims joins t).victims ↔
      ∃ j ∈ joins, t.id ∈ j ∧ ∃ vid ∈ j, alookup victims vid = some p := by
  simp only [mkOffence, List.mem_flatMap, List.mem_filter, List.mem_filterMap,
    decide_eq_true_eq]
  constructor
  · rintro ⟨j, ⟨hj, hid⟩, vid, hvid, hlook⟩
    exact ⟨j, hj, hid, vid, hvid, hlook⟩
  · rintro ⟨j, hj, hid, vid, hvid, hlook⟩
    exact ⟨j, ⟨hj, hid⟩, vid, hvid, hlook⟩

/-- C7 witness: membership in `ct7`'s offence victims list via the amended
characterization. -/
theorem c7_witness :
    carolP ∈ (mkOffence [("p9", carolP)] [["o1", "p9"], ["o1", "p9"]] oT1).victims :=
  (c7_amended_thm [("p9", carolP)] [["o1", "p9"], ["o1", "p9"]] oT1 carolP).mpr
    ⟨["o1", "p9"], by decide, by decide, "p9", by decide, by decide⟩

/-- C8: occupation classification.  A raw occupation string absent from the
table stays a (normalized title-case) string — `costermonger` becomes
`Costermonger` — one present in the table is replaced by its `Occupation`
record, and a table row with class code `w` and skill code `y` loads as
`working_class = true, skilled = true`; an absent occupation field yields
`none`; table rows whose name has no ASCII letter are rejected at load
time. -/
theorem c8_occupation_classification :
    (∀ (occD : AList String Occupation) (t : RawPersonTag) (s : String),
        t.occupation = some s →
        alookup occD (normalize_text_titlecase s) = none →
        (mkPerson occD t).occupation = some (Sum.inl (normalize_text_titlecase s)))
    ∧ (mkPerson [] ⟨"p1", "x", none, none, some "costermonger"⟩).occupation
        = some (Sum.inl "Costermonger")
    ∧ (∀ (occD : AList String Occupation) (t : RawPersonTag) (s : String)
        (o : Occupation),
        t.occupation = some s →
        alookup occD (normalize_text_titlecase s) = some o →
        (mkPerson occD t).occupation = some (Sum.inr o))
    ∧ (∀ n : String, hasAlpha n = true →
        parse_occupation_csv [(some n, some "w", some "y")]
          = [(n, ⟨n, some true, some true⟩)])
    ∧ (∀ (occD : AList String Occupation) (t : RawPersonTag),
        t.occupation = none → (mkPerson occD t).occupation = none)
    ∧ (∀ (rows : List (Option String × Option String × Option String)) (n : String),
        (alookup (parse_occupation_csv rows) n).isSome = true → hasAlpha n = true) := by
  refine ⟨?_, rfl, ?_, ?_, ?_, ?_⟩
  · intro occD t s hs hl
    simp [mkPerson, hs, hl]
  · intro occD t s o hs hl
    simp [mkPerson, hs, hl]
  · intro n hn
    simp only [parse_occupation_csv, occCsvGo, hn, if_true]
    rfl
  · intro occD t ht
    simp [mkPerson, ht]
  · intro rows n h
    rcases occCsvGo_hasAlpha rows [] n h with habs | hgood
    · simp [alookup] at habs
    · exact hgood

/-- C8 witness: the general statements applied to `costermonger` (absent from
the table) and to a `Baker` row with codes `w`/`y`. -/
theorem c8_witness :
    (mkPerson [] ⟨"p2", "y", none, none, some "  costermonger "⟩).occupation
      = some (Sum.inl "Costermonger")
    ∧ parse_occupation_csv [(some "Baker", some "w", some "y")]
      = [("Baker", ⟨"Baker", some true, some true⟩)]
    ∧ (mkPerson [(("Baker" : String), (⟨"Baker", some true, some true⟩ : Occupation))]
        ⟨"p3", "z", none, none, some "baker"⟩).occupation
      = some (Sum.inr ⟨"Baker", some true, some true⟩)
    ∧ (mkPerson [] ⟨"p4", "w", none, none, none⟩).occupation = none
    ∧ hasAlpha "Costermonger" = true := by
  have h := c8_occupation_classification
  refine ⟨?_, ?_, ?_, ?_, ?_⟩
  · exact h.1 [] ⟨"p2", "y", none, none, some "  costermonger "⟩ "  costermonger "
      rfl rfl
  · exact h.2.2.2.1 "Baker" rfl
  · exact h.2.2.1 [(("Baker" : String), (⟨"Baker", some true, some true⟩ : Occupation))]
      ⟨"p3", "z", none, none, some "baker"⟩ "baker" ⟨"Baker", some true, some true⟩
      rfl rfl
  · exact h.2.2.2.2.1 [] ⟨"p4", "w", none, none, none⟩ rfl
  · exact h.2.2.2.2.2 [(some "Costermonger", none, none)] "Costermonger" rfl

/-- C9: file selection.  A name is selected iff it is a `*.xml` directory
entry whose leading four characters are digits forming a year in the
inclusive range, followed by at least one further word character and `.xml`;
the output is sorted; `1845_sessions.xml` is selected for [1833, 1913] while
`1820_sessions.xml` (out of range) and `sessions.xml` (no leading year) are
not. -/
theorem c9_file_selection :
    (∀ (names : List String) (minY maxY : Nat) (f : String),
        f ∈ find_victorian_files names minY maxY ↔
          f ∈ names ∧ globXml f = true ∧
            ∃ y, xmlYearOf f = some y ∧ minY ≤ y ∧ y ≤ maxY)
    ∧ (∀ (names : List String) (minY maxY : Nat),
        (find_victorian_files names minY maxY).Pairwise (fun a b => a ≤ b))
    ∧ find_victorian_files ["sessions.xml", "1845_sessions.xml", "1820_sessions.xml"]
        1833 1913 = ["1845_sessions.xml"]
    ∧ xmlYearOf "1845_sessions.xml" = some 1845
    ∧ xmlYearOf "1820_sessions.xml" = some 1820
    ∧ xmlYearOf "sessions.xml" = none := by
  refine ⟨?_, ?_, ?_, rfl, rfl, rfl⟩
  · intro names minY maxY f
    unfold find_victorian_files
    rw [List.mem_mergeSort, List.mem_filter, List.mem_filter]
    cases hy : xmlYearOf f with
    | none => simp [hy]
    | some y => simp [hy, and_assoc]
  · intro names minY maxY
    unfold find_victorian_files
    have htrans : ∀ a b c : String,
        (fun a b : String => decide (a ≤ b)) a b →
        (fun a b : String => decide (a ≤ b)) b c →
        (fun a b : String => decide (a ≤ b)) a c := by
      intro a b c hab hbc
      exact decide_eq_true (le_trans (of_decide_eq_true hab) (of_decide_eq_true hbc))
    have htotal : ∀ a b : String,
        ((fun a b : String => decide (a ≤ b)) a b
          || (fun a b : String => decide (a ≤ b)) b a) = true := by
      intro a b
      show (decide (a ≤ b) || decide (b ≤ a)) = true
      rcases le_total a b with hab | hba
      · rw [decide_eq_true hab, Bool.true_or]
      · rw [decide_eq_true hba, Bool.or_true]
    exact (List.sorted_mergeSort htrans htotal _).imp (fun h => of_decide_eq_true h)
  · unfold find_victorian_files
    rw [show (["sessions.xml", "1845_sessions.xml", "1820_sessions.xml"].filter
        (fun n => globXml n)).filter
        (fun n =>
          match xmlYearOf n with
          | some y => decide (1833 ≤ y) && decide (y ≤ 1913)
          | none => false) = ["1845_sessions.xml"] from rfl]
    exact List.mergeSort_of_sorted (by simp)

/-- C9 witness: the membership characterization applied to
`1845_sessions.xml` in the Victorian range. -/
theorem c9_witness :
    "1845_sessions.xml" ∈ find_victorian_files
      ["sessions.xml", "1845_sessions.xml", "1820_sessions.xml"] 1833 1913 :=
  (c9_file_selection.1 ["sessions.xml", "1845_sessions.xml", "1820_sessions.xml"]
      1833 1913 "1845_sessions.xml").mpr
    ⟨by decide, rfl, 1845, rfl, by decide, by decide⟩

/-- C10: the corpus driver's date-keyed collation takes the date of the first
non-null `TrialData` of each file's result list and has no fallback: if some
file's per-record results are all null, the collation (and hence the driver)
raises instead of returning a mapping. -/
theorem c10_collation_error :
    (∀ (lists : List (List (Option TrialData))) (l : List (Option TrialData))
        (acc : AList Nat (List (Option TrialData))),
        l ∈ lists → (∀ x ∈ l, x = none) → collateAux acc lists = none)
    ∧ (∀ (occD : AList String Occupation) (files : List (String × List TrialTag))
        (lists : List (List (Option TrialData))) (l : List (Option TrialData)),
        parseXmlFiles occD files = .ok lists →
        l ∈ lists → (∀ x ∈ l, x = none) →
        process_data_xml_folder_to_trials_per_date occD files
          = .error .stopIteration) := by
  constructor
  · intro lists l acc hl hnone
    exact collateAux_none lists l hl hnone acc
  · intro occD files lists l hok hl hnone
    have hstep : process_data_xml_folder_to_trials_per_date occD files
        = match collateAux [] lists with
          | none => .error .stopIteration
          | some d => .ok d := by
      unfold process_data_xml_folder_to_trials_per_date
      rw [hok]
    rw [hstep, collateAux_none lists l hl hnone []]

/-- C10 witness: a single file whose only record is the conflicting-duplicate
trial `ct4` parses to `[none]`, and the driver raises the collation error. -/
theorem c10_witness :
    process_data_xml_folder_to_trials_per_date [] [("18450101.xml", [ct4])]
      = .error .stopIteration := by
  have h := c10_collation_error.2 [] [("18450101.xml", [ct4])] [[none]] [none]
    rfl (by decide) (by decide)
  exact h

end OldBailey
